import Mathlib

/-!
Verification of the diffusion-based anomaly-detection pipeline
(`main.py` for training, `inference_ddim.py` for inference).

The repository's orchestration files are embedded directly; the scheduler,
anomaly-map and persistence helpers they import (`schedulers/scheduling_ddim.py`,
`utils/anomalies.py`, `utils/visualize.py`, `utils/files.py`) are not part of
the two orchestration sources, so those parts are modelled from the
specification, as flagged in each doc comment.
-/

namespace DBAD

/-! ## Noise schedule (linear beta schedule) -/

/-- Modelled from the spec: the linear beta schedule of the scheduler
(`schedulers/scheduling_ddim.py` is not under `src/`).  It "linearly
interpolates beta between two fixed small constants (e.g., 1e-4 to 2e-2)
across T steps": `beta t = 1e-4 + (2e-2 - 1e-4) * t / (T - 1)`. -/
def betaLinear (T t : ℕ) : ℚ :=
  if T ≤ 1 then 1 / 10000
  else 1 / 10000 + (1 / 50 - 1 / 10000) * (t : ℚ) / ((T : ℚ) - 1)

/-- Modelled from the spec: `alpha_t = 1 - beta_t`. -/
def alphaLinear (T t : ℕ) : ℚ := 1 - betaLinear T t

/-- Modelled from the spec: `alpha_cumprod_t = prod over i from 0 to t of alpha_i`. -/
def alphaCumprod (T t : ℕ) : ℚ := ∏ i ∈ Finset.range (t + 1), alphaLinear T i

lemma betaLinear_pos (T t : ℕ) : 0 < betaLinear T t := by
  unfold betaLinear
  split
  · norm_num
  · rename_i h
    have hT : (2 : ℚ) ≤ (T : ℚ) := by exact_mod_cast Nat.lt_of_not_le h
    have hden : (0 : ℚ) < (T : ℚ) - 1 := by linarith
    have ht : (0 : ℚ) ≤ (t : ℚ) := Nat.cast_nonneg t
    have : 0 ≤ (1 / 50 - 1 / 10000 : ℚ) * (t : ℚ) / ((T : ℚ) - 1) := by positivity
    linarith

lemma betaLinear_le (T t : ℕ) (ht : t < T) : betaLinear T t ≤ 1 / 50 := by
  unfold betaLinear
  split
  · norm_num
  · rename_i h
    have hT : (2 : ℚ) ≤ (T : ℚ) := by exact_mod_cast Nat.lt_of_not_le h
    have hden : (0 : ℚ) < (T : ℚ) - 1 := by linarith
    have htT : (t : ℚ) ≤ (T : ℚ) - 1 := by
      have : (t : ℚ) + 1 ≤ (T : ℚ) := by exact_mod_cast Nat.succ_le_of_lt ht
      linarith
    have hkey : (1 / 50 - 1 / 10000 : ℚ) * (t : ℚ) / ((T : ℚ) - 1) ≤ 1 / 50 - 1 / 10000 := by
      rw [div_le_iff₀ hden]
      have := mul_le_mul_of_nonneg_left htT (by norm_num : (0 : ℚ) ≤ 1 / 50 - 1 / 10000)
      linarith
    linarith

lemma alphaLinear_lt_one (T t : ℕ) : alphaLinear T t < 1 := by
  have := betaLinear_pos T t
  unfold alphaLinear
  linarith

lemma alphaLinear_pos (T t : ℕ) (ht : t < T) : 0 < alphaLinear T t := by
  have := betaLinear_le T t ht
  unfold alphaLinear
  linarith

lemma alphaCumprod_pos (T t : ℕ) (ht : t < T) : 0 < alphaCumprod T t := by
  refine Finset.prod_pos fun i hi => alphaLinear_pos T i ?_
  have : i < t + 1 := Finset.mem_range.mp hi
  omega

lemma alphaCumprod_le_one (T t : ℕ) (ht : t < T) : alphaCumprod T t ≤ 1 := by
  refine Finset.prod_le_one (fun i hi => ?_) (fun i hi => ?_)
  · have : i < t + 1 := Finset.mem_range.mp hi
    exact le_of_lt (alphaLinear_pos T i (by omega))
  · exact le_of_lt (alphaLinear_lt_one T i)

lemma alphaCumprod_succ (T t : ℕ) :
    alphaCumprod T (t + 1) = alphaCumprod T t * alphaLinear T (t + 1) :=
  Finset.prod_range_succ _ _

lemma alphaCumprod_strict_anti (T t u : ℕ) (htu : t < u) (huT : u < T) :
    alphaCumprod T u < alphaCumprod T t := by
  induction u with
  | zero => omega
  | succ v ih =>
    have hvT : v < T := by omega
    have hstep : alphaCumprod T (v + 1) < alphaCumprod T v := by
      rw [alphaCumprod_succ]
      exact mul_lt_of_lt_one_right (alphaCumprod_pos T v hvT) (alphaLinear_lt_one T (v + 1))
    rcases Nat.lt_succ_iff_lt_or_eq.mp htu with h | h
    · exact hstep.trans (ih h hvT)
    · subst h; exact hstep

lemma alphaCumprod_zero (T : ℕ) : alphaCumprod T 0 = 9999 / 10000 := by
  unfold alphaCumprod
  rw [Finset.prod_range_one]
  unfold alphaLinear betaLinear
  split <;> norm_num

lemma betaLinear_big (i : ℕ) (h5 : 500 ≤ i) : 1 / 100 ≤ betaLinear 1000 i := by
  unfold betaLinear
  have hcond : ¬ (1000 : ℕ) ≤ 1 := by norm_num
  rw [if_neg hcond]
  have hi : (500 : ℚ) ≤ (i : ℚ) := by exact_mod_cast h5
  have hkey : (1 / 50 - 1 / 10000 : ℚ) * 500 / ((1000 : ℕ) - 1 : ℚ)
      ≤ (1 / 50 - 1 / 10000 : ℚ) * (i : ℚ) / ((1000 : ℕ) - 1 : ℚ) := by
    gcongr
  have hval : (1 / 50 - 1 / 10000 : ℚ) * 500 / ((1000 : ℕ) - 1 : ℚ) = 99500 / 9990000 := by
    norm_num
  rw [hval] at hkey
  have : ((1000 : ℕ) : ℚ) = 1000 := by norm_num
  linarith [hkey]

lemma alphaLinear_small (i : ℕ) (h5 : 500 ≤ i) : alphaLinear 1000 i ≤ 99 / 100 := by
  have := betaLinear_big i h5
  unfold alphaLinear
  linarith

lemma pow_bound : ((99 : ℚ) / 100) ^ 500 < 1 / 100 := by
  rw [div_pow, div_lt_div_iff₀ (by positivity) (by norm_num)]
  norm_num

lemma alphaCumprod_tail_small : alphaCumprod 1000 999 < 1 / 100 := by
  unfold alphaCumprod
  have hsplit : ∏ i ∈ Finset.range (999 + 1), alphaLinear 1000 i
      = (∏ i ∈ Finset.Ico 0 500, alphaLinear 1000 i)
        * ∏ i ∈ Finset.Ico 500 1000, alphaLinear 1000 i := by
    rw [Finset.prod_Ico_consecutive _ (by norm_num) (by norm_num)]
    rw [← Finset.range_eq_Ico]
  rw [hsplit]
  have h1 : (∏ i ∈ Finset.Ico 0 500, alphaLinear 1000 i) ≤ 1 := by
    refine Finset.prod_le_one (fun i hi => ?_) (fun i hi => ?_)
    · have : i < 500 := (Finset.mem_Ico.mp hi).2
      exact le_of_lt (alphaLinear_pos 1000 i (by omega))
    · exact le_of_lt (alphaLinear_lt_one 1000 i)
  have h2 : (∏ i ∈ Finset.Ico 500 1000, alphaLinear 1000 i) ≤ ((99 : ℚ) / 100) ^ 500 := by
    have := Finset.prod_le_prod (s := Finset.Ico 500 1000)
      (f := fun i => alphaLinear 1000 i) (g := fun _ => (99 : ℚ) / 100)
      (fun i hi => le_of_lt (alphaLinear_pos 1000 i (Finset.mem_Ico.mp hi).2))
      (fun i hi => alphaLinear_small i (Finset.mem_Ico.mp hi).1)
    simpa [Finset.prod_const, Nat.card_Ico] using this
  have h2pos : (0 : ℚ) ≤ ∏ i ∈ Finset.Ico 500 1000, alphaLinear 1000 i :=
    Finset.prod_nonneg fun i hi => le_of_lt (alphaLinear_pos 1000 i (Finset.mem_Ico.mp hi).2)
  calc (∏ i ∈ Finset.Ico 0 500, alphaLinear 1000 i)
        * ∏ i ∈ Finset.Ico 500 1000, alphaLinear 1000 i
      ≤ 1 * ((99 : ℚ) / 100) ^ 500 := by
        exact mul_le_mul h1 h2 h2pos (by norm_num)
    _ = ((99 : ℚ) / 100) ^ 500 := one_mul _
    _ < 1 / 100 := pow_bound

/-- Claim C2 (amended): for every T and every pair of timesteps below T the
`alpha_cumprod` sequence of the linear schedule is strictly decreasing; every
value lies in (0, 1]; `alpha_cumprod 0` equals 9999/10000 (close to 1) for
every T; and at the default T = 1000 the final value `alpha_cumprod (T-1)` is
below 1/100 (close to 0).  The close-to-0 part holds at the default step
count, not for every T (see the counterexample at T = 2). -/
theorem claim_C2_schedule :
    (∀ T t u : ℕ, t < u → u < T → alphaCumprod T u < alphaCumprod T t) ∧
    (∀ T t : ℕ, t < T → 0 < alphaCumprod T t ∧ alphaCumprod T t ≤ 1) ∧
    (∀ T : ℕ, alphaCumprod T 0 = 9999 / 10000) ∧
    alphaCumprod 1000 999 < 1 / 100 := by
  refine ⟨fun T t u htu huT => alphaCumprod_strict_anti T t u htu huT,
    fun T t ht => ⟨alphaCumprod_pos T t ht, alphaCumprod_le_one T t ht⟩,
    alphaCumprod_zero, alphaCumprod_tail_small⟩

/-- Witness for C2: the strict decrease and range statements instantiated at
T = 5, t = 1, u = 3. -/
theorem claim_C2_schedule_witness :
    alphaCumprod 5 3 < alphaCumprod 5 1 ∧ 0 < alphaCumprod 5 3 ∧ alphaCumprod 5 3 ≤ 1 :=
  ⟨claim_C2_schedule.1 5 1 3 (by norm_num) (by norm_num),
   (claim_C2_schedule.2.1 5 3 (by norm_num)).1,
   (claim_C2_schedule.2.1 5 3 (by norm_num)).2⟩

/-- Counterexample for C2 as stated: the claim asks `alpha_cumprod (T-1)` to be
close to 0 for every T > 0, but at T = 2 the final value exceeds 1/2. -/
theorem claim_C2_counterexample : 1 / 2 < alphaCumprod 2 1 := by
  unfold alphaCumprod alphaLinear betaLinear
  rw [Finset.prod_range_succ, Finset.prod_range_one]
  norm_num

/-! ## DDIM reverse sampler -/

/-- Modelled from the spec: the ForwardDiffuser contract (§4.2); the
implementation lives in the scheduler files, which are not under `src/`:
`noisy_sample = sqrt(alpha_cumprod_t) * clean_sample + sqrt(1 - alpha_cumprod_t) * noise`. -/
noncomputable def noisify (ac : ℕ → ℝ) (t : ℕ) (x n : ℝ) : ℝ :=
  Real.sqrt (ac t) * x + Real.sqrt (1 - ac t) * n

/-- Modelled from the spec: the predicted clean-sample estimate (§4.3 step b);
`schedulers/scheduling_ddim.py` is not under `src/`. -/
noncomputable def x0Pred (acT x eps : ℝ) : ℝ :=
  (x - Real.sqrt (1 - acT) * eps) / Real.sqrt acT

/-- Modelled from the spec: the reconstruction-weight blend (§4.3 step c). -/
noncomputable def blend (w orig x0 : ℝ) : ℝ := w * orig + (1 - w) * x0

/-- Modelled from the spec: the DDIM variance term (§4.3 step d), forced to
zero at the final step `t_prev = 0` (§4.3 edge cases). -/
noncomputable def ddimVariance (eta acCur acPrev : ℝ) (tPrev : ℕ) : ℝ :=
  if tPrev = 0 then 0
  else eta ^ 2 * ((1 - acPrev) / (1 - acCur)) * (1 - acCur / acPrev)

/-- Modelled from the spec: one reverse DDIM step (§4.3 steps a–f).  The
network is queried with the current sample, the current timestep and the
conditioning features; fresh noise `z` is added only when the variance is
positive. -/
noncomputable def ddimStep (ac : ℕ → ℝ) (w eta orig : ℝ) (net : ℝ → ℕ → ℝ → ℝ)
    (cond : ℝ) (z : ℕ → ℝ) (tCur tPrev : ℕ) (x : ℝ) : ℝ :=
  Real.sqrt (ac tPrev) * blend w orig (x0Pred (ac tCur) x (net x tCur cond))
    + Real.sqrt (1 - ac tPrev - ddimVariance eta (ac tCur) (ac tPrev) tPrev) * net x tCur cond
    + (if 0 < ddimVariance eta (ac tCur) (ac tPrev) tPrev
        then Real.sqrt (ddimVariance eta (ac tCur) (ac tPrev) tPrev) * z tPrev else 0)

/-- Modelled from the spec: the reverse trajectory over the consecutive
timestep pairs of the descending sequence (§4.3 step 3). -/
noncomputable def samplerRun (ac : ℕ → ℝ) (w eta orig : ℝ) (net : ℝ → ℕ → ℝ → ℝ)
    (cond : ℝ) (z : ℕ → ℝ) : List (ℕ × ℕ) → ℝ → ℝ
  | [], x => x
  | (tc, tp) :: rest, x =>
      samplerRun ac w eta orig net cond z rest (ddimStep ac w eta orig net cond z tc tp x)

/-- Modelled from the spec: a full sampler invocation — the original sample is
noised up to the starting timestep (§4.3 step 2) and the reverse trajectory is
run from there. -/
noncomputable def ddimSample (ac : ℕ → ℝ) (w eta orig : ℝ) (net : ℝ → ℕ → ℝ → ℝ)
    (cond : ℝ) (z : ℕ → ℝ) (startT : ℕ) (initNoise : ℝ) (pairs : List (ℕ × ℕ)) : ℝ :=
  samplerRun ac w eta orig net cond z pairs (noisify ac startT orig initNoise)

/-- Modelled from the spec: the (sample, timestep, conditioning) queries
issued to the external network along a trajectory (§4.3 step 3a). -/
noncomputable def sampleQueries (ac : ℕ → ℝ) (w eta orig : ℝ) (net : ℝ → ℕ → ℝ → ℝ)
    (cond : ℝ) (z : ℕ → ℝ) : List (ℕ × ℕ) → ℝ → List (ℝ × ℕ × ℝ)
  | [], _ => []
  | (tc, tp) :: rest, x =>
      (x, tc, cond) ::
        sampleQueries ac w eta orig net cond z rest (ddimStep ac w eta orig net cond z tc tp x)

lemma ddimVariance_eta_zero (acCur acPrev : ℝ) (tPrev : ℕ) :
    ddimVariance 0 acCur acPrev tPrev = 0 := by
  unfold ddimVariance
  split
  · rfl
  · ring

lemma ddimVariance_tPrev_zero (eta acCur acPrev : ℝ) :
    ddimVariance eta acCur acPrev 0 = 0 := if_pos rfl

lemma ddimStep_eta_zero_no_fresh_noise (ac : ℕ → ℝ) (w orig cond x : ℝ)
    (net : ℝ → ℕ → ℝ → ℝ) (z z' : ℕ → ℝ) (tc tp : ℕ) :
    ddimStep ac w 0 orig net cond z tc tp x = ddimStep ac w 0 orig net cond z' tc tp x := by
  unfold ddimStep
  rw [ddimVariance_eta_zero]
  simp

/-- Claim C1 (amended): with `reconstruction_weight = 1` the blend replaces
the predicted clean-sample estimate by the original at every step, so the
final reverse step (the one with `t_prev = 0`) outputs
`sqrt(ac 0) * original + sqrt(1 - ac 0) * predicted_noise`, which tends to the
original as `ac 0` tends to 1 (`ac 0` is 9999/10000 for the linear schedule);
with `reconstruction_weight = 0` the blend returns the network's clean-sample
estimate unchanged — the sampler's output then still depends on the original
through the initial noising, not only on the network's predictions. -/
theorem claim_C1_reconstruction_weight :
    (∀ orig x0 : ℝ, blend 1 orig x0 = orig) ∧
    (∀ orig x0 : ℝ, blend 0 orig x0 = x0) ∧
    (∀ (ac : ℕ → ℝ) (eta orig cond x : ℝ) (net : ℝ → ℕ → ℝ → ℝ) (z : ℕ → ℝ) (tc : ℕ),
        ddimStep ac 1 eta orig net cond z tc 0 x
          = Real.sqrt (ac 0) * orig + Real.sqrt (1 - ac 0) * net x tc cond) ∧
    (∀ orig e : ℝ,
        Filter.Tendsto (fun a : ℝ => Real.sqrt a * orig + Real.sqrt (1 - a) * e)
          (nhds 1) (nhds orig)) := by
  refine ⟨fun orig x0 => by unfold blend; ring,
    fun orig x0 => by unfold blend; ring, ?_, ?_⟩
  · intro ac eta orig cond x net z tc
    unfold ddimStep
    rw [ddimVariance_tPrev_zero]
    unfold blend
    simp
  · intro orig e
    have hc : Continuous fun a : ℝ => Real.sqrt a * orig + Real.sqrt (1 - a) * e :=
      (Real.continuous_sqrt.mul continuous_const).add
        ((Real.continuous_sqrt.comp (continuous_const.sub continuous_id)).mul continuous_const)
    have h := hc.tendsto 1
    simpa using h

/-- The schedule used by the C1 counterexample: alpha-cumprod values with
rational square roots. -/
noncomputable def acEx : ℕ → ℝ := fun t => if t = 0 then 16 / 25 else 9 / 25

/-- A network that always predicts zero noise. -/
def zeroNet : ℝ → ℕ → ℝ → ℝ := fun _ _ _ => 0

/-- An all-zero fresh-noise stream. -/
def zeroNoise : ℕ → ℝ := fun _ => 0

lemma sqrt_frac_9_25 : Real.sqrt (9 / 25) = 3 / 5 := by
  rw [show (9 / 25 : ℝ) = (3 / 5) ^ 2 by norm_num]
  exact Real.sqrt_sq (by norm_num)

lemma sqrt_frac_16_25 : Real.sqrt (16 / 25) = 4 / 5 := by
  rw [show (16 / 25 : ℝ) = (4 / 5) ^ 2 by norm_num]
  exact Real.sqrt_sq (by norm_num)

lemma sqrt_lit_9 : Real.sqrt 9 = 3 := by
  rw [show (9 : ℝ) = 3 ^ 2 by norm_num]
  exact Real.sqrt_sq (by norm_num)

lemma sqrt_lit_16 : Real.sqrt 16 = 4 := by
  rw [show (16 : ℝ) = 4 ^ 2 by norm_num]
  exact Real.sqrt_sq (by norm_num)

lemma sqrt_lit_25 : Real.sqrt 25 = 5 := by
  rw [show (25 : ℝ) = 5 ^ 2 by norm_num]
  exact Real.sqrt_sq (by norm_num)

/-- Counterexample for C1 as stated: with `reconstruction_weight = 0` the
sampler's output still depends on the original sample (through the initial
noising), not only on the network's predictions.  Two originals (5 and 0),
identical network (always predicting zero) and identical noise give
different outputs (4 versus 0). -/
theorem claim_C1_counterexample :
    ddimSample acEx 0 0 5 zeroNet 0 zeroNoise 1 0 [(1, 0)]
      ≠ ddimSample acEx 0 0 0 zeroNet 0 zeroNoise 1 0 [(1, 0)] := by
  have h5 : ddimSample acEx 0 0 5 zeroNet 0 zeroNoise 1 0 [(1, 0)] = 4 := by
    norm_num [ddimSample, samplerRun, ddimStep, noisify, x0Pred, blend, ddimVariance,
      acEx, zeroNet, zeroNoise, sqrt_frac_9_25, sqrt_frac_16_25, sqrt_lit_9, sqrt_lit_16,
      sqrt_lit_25]
  have h0 : ddimSample acEx 0 0 0 zeroNet 0 zeroNoise 1 0 [(1, 0)] = 0 := by
    norm_num [ddimSample, samplerRun, ddimStep, noisify, x0Pred, blend, ddimVariance,
      acEx, zeroNet, zeroNoise, sqrt_frac_9_25, sqrt_frac_16_25, sqrt_lit_9, sqrt_lit_16,
      sqrt_lit_25]
  rw [h5, h0]
  norm_num

/-- Claim C3: with `eta = 0` the DDIM variance term is zero at every step (and
also at the final step `t_prev = 0` for every eta), and the reverse trajectory
does not consume the fresh-noise stream: two runs on the same inputs with
different noise streams produce identical outputs. -/
theorem claim_C3_eta_zero_deterministic :
    (∀ (acCur acPrev : ℝ) (tPrev : ℕ), ddimVariance 0 acCur acPrev tPrev = 0) ∧
    (∀ eta acCur acPrev : ℝ, ddimVariance eta acCur acPrev 0 = 0) ∧
    (∀ (ac : ℕ → ℝ) (w orig cond x : ℝ) (net : ℝ → ℕ → ℝ → ℝ) (z z' : ℕ → ℝ)
        (pairs : List (ℕ × ℕ)),
        samplerRun ac w 0 orig net cond z pairs x
          = samplerRun ac w 0 orig net cond z' pairs x) := by
  refine ⟨ddimVariance_eta_zero, ddimVariance_tPrev_zero, ?_⟩
  intro ac w orig cond x net z z' pairs
  induction pairs generalizing x with
  | nil => rfl
  | cons hd rest ih =>
    obtain ⟨tc, tp⟩ := hd
    simp only [samplerRun]
    rw [ddimStep_eta_zero_no_fresh_noise ac w orig cond x net z z' tc tp]
    exact ih _

/-- Claim C8: along any reverse trajectory, every query issued to the network
carries exactly the conditioning-feature tensor that the sampler was given —
the trace of conditioning arguments is the constant list. -/
theorem claim_C8_conditioning_constant :
    ∀ (ac : ℕ → ℝ) (w eta orig cond x : ℝ) (net : ℝ → ℕ → ℝ → ℝ) (z : ℕ → ℝ)
      (pairs : List (ℕ × ℕ)),
      (sampleQueries ac w eta orig net cond z pairs x).map (fun q => q.2.2)
        = List.replicate pairs.length cond := by
  intro ac w eta orig cond x net z pairs
  induction pairs generalizing x with
  | nil => rfl
  | cons hd rest ih =>
    obtain ⟨tc, tp⟩ := hd
    simp only [sampleQueries, List.map_cons, List.length_cons, List.replicate_succ,
      List.cons.injEq]
    exact ⟨trivial, ih _⟩

/-! ## Score accumulation in the inference loop (`inference_ddim.py`, lines 137-157) -/

/-- The empty `Counter()` created before the inference loop (line 137): every
metric name maps to 0. -/
def emptyCounter : String → ℚ := fun _ => 0

/-- `eval_scores.update(scores_batch(...))` (line 170): `Counter.update` adds
the batch mapping pointwise, missing keys counting as 0. -/
def counterUpdate (acc b : String → ℚ) : String → ℚ := fun k => acc k + b k

/-- The running sum accumulated across all batches of the inference loop. -/
def accumulateScores (batches : List (String → ℚ)) : String → ℚ :=
  batches.foldl counterUpdate emptyCounter

/-- The end-of-epoch division of every accumulated value by the number of
batches (`for key in eval_scores: eval_scores[key] /= len(test_loader)`,
lines 150-151). -/
def finalizeScores (acc : String → ℚ) (n : ℕ) : String → ℚ := fun k => acc k / n

/-- The score mapping reported at the end of the inference run: accumulate
every batch's scores starting from the empty counter, then divide by the
batch count. -/
def inferenceEvalScores (batches : List (String → ℚ)) : String → ℚ :=
  finalizeScores (accumulateScores batches) batches.length

lemma foldl_counterUpdate (batches : List (String → ℚ)) (acc : String → ℚ) (k : String) :
    batches.foldl counterUpdate acc k = acc k + (batches.map (fun b => b k)).sum := by
  induction batches generalizing acc with
  | nil => simp
  | cons b rest ih =>
    simp only [List.foldl_cons, List.map_cons, List.sum_cons, ih, counterUpdate]
    ring

/-- Claim C4: the inference score accumulator starts empty, each batch's
metric mapping is added to it as a running sum (so after all batches every
entry is the pointwise sum of the per-batch values), and the reported value is
that sum divided by the number of batches. -/
theorem claim_C4_score_accumulator :
    accumulateScores [] = emptyCounter ∧
    (∀ (batches : List (String → ℚ)) (b : String → ℚ),
        accumulateScores (batches ++ [b]) = counterUpdate (accumulateScores batches) b) ∧
    (∀ (batches : List (String → ℚ)) (k : String),
        accumulateScores batches k = (batches.map (fun b => b k)).sum) ∧
    (∀ (batches : List (String → ℚ)) (k : String),
        inferenceEvalScores batches k = (batches.map (fun b => b k)).sum / batches.length) := by
  have hsum : ∀ (batches : List (String → ℚ)) (k : String),
      accumulateScores batches k = (batches.map (fun b => b k)).sum := by
    intro batches k
    unfold accumulateScores
    rw [foldl_counterUpdate]
    simp [emptyCounter]
  refine ⟨rfl, ?_, hsum, ?_⟩
  · intro batches b
    unfold accumulateScores
    rw [List.foldl_append]
    rfl
  · intro batches k
    unfold inferenceEvalScores finalizeScores
    rw [hsum]

/-! ## Validation scores in the training loop (`main.py`, lines 224-247) -/

/-- One batch of the per-epoch validation phase (lines 227-234): the `scores`
Counter is only read (`writer.add_scalars(..., dict(scores), ...)` logs a
snapshot); the `run_inference_step` call that would populate it is commented
out, so the state carries the counter unchanged and appends the snapshot. -/
def validationBatch (st : (String → ℚ) × List (String → ℚ)) (_b : ℕ) :
    (String → ℚ) × List (String → ℚ) :=
  (st.1, st.2 ++ [st.1])

/-- The validation phase of one training epoch (lines 224-247): start from
`Counter()`, run all `n` batches, then divide every entry by
`len(test_loader)`.  Returns the final averaged mapping together with the
per-batch logged snapshots. -/
def validationPhase (n : ℕ) : (String → ℚ) × List (String → ℚ) :=
  (finalizeScores ((List.range n).foldl validationBatch (emptyCounter, [])).1 n,
   ((List.range n).foldl validationBatch (emptyCounter, [])).2)

lemma foldl_validationBatch (l : List ℕ) (c : String → ℚ) (lg : List (String → ℚ)) :
    l.foldl validationBatch (c, lg) = (c, lg ++ List.replicate l.length c) := by
  induction l generalizing lg with
  | nil => simp
  | cons a rest ih =>
    simp only [List.foldl_cons, validationBatch, ih, List.length_cons, List.replicate_succ]
    simp

/-- Claim C10: during every training epoch the validation `scores` Counter is
never populated, so every per-batch logged snapshot is the empty mapping and
the final mapping after division by the batch count is empty as well. -/
theorem claim_C10_validation_scores_empty :
    ∀ n : ℕ, (validationPhase n).1 = emptyCounter ∧
      (validationPhase n).2 = List.replicate n emptyCounter := by
  intro n
  unfold validationPhase
  rw [foldl_validationBatch]
  refine ⟨?_, by simp⟩
  funext k
  simp [finalizeScores, emptyCounter]

/-! ## Loop-variable shadowing in the inference loop (`inference_ddim.py`, lines 139-148) -/

/-- The value of the Python variable `i` at the `run_inference_step` call
site: the outer loop `for i, (imgs, states, gts) in enumerate(test_loader)`
binds `i` to the batch index, but the inner loop `for i in range(4)` then
rebinds `i` to each of 0, 1, 2, 3 before the call. -/
def iAfterFeatureLoop (outerI : ℕ) : ℕ := (List.range 4).foldl (fun _ j => j) outerI

/-- Claim C9: whatever the batch's position in the data loader, the
batch-index argument passed to `run_inference_step` is the leftover inner
loop variable, 3. -/
theorem claim_C9_batch_index_shadowed : ∀ outerI : ℕ, iAfterFeatureLoop outerI = 3 :=
  fun _ => rfl

/-! ## Anomaly-map derivation (`inference_ddim.py` lines 129 and 168) -/

/-- The Gaussian-blur kernel size built at line 129:
`transforms.GaussianBlur(2 * int(4 * 4 + 0.5) + 1, 4)` — Python `int`
truncates the positive value 16.5 down to 16. -/
def gaussianBlurKernelSize : ℕ := 2 * (⌊(4 * 4 + 1 / 2 : ℚ)⌋).toNat + 1

/-- The sigma argument of the Gaussian blur built at line 129. -/
def gaussianBlurSigma : ℚ := 4

/-- The threshold cutoff passed to `diff_map_to_anomaly_map` at line 168. -/
def anomalyThreshold : ℚ := 3 / 10

/-- A single-channel spatial map as a list of rows. -/
abbrev Grid := List (List ℚ)

/-- Width of a grid: the length of its first row (0 when empty). -/
def gridWidth (g : Grid) : ℕ := (g.getD 0 []).length

/-- Pixel lookup, out-of-range positions reading 0. -/
def gridGet (g : Grid) (i j : ℕ) : ℚ := (g.getD i []).getD j 0

/-- Index clamped into `[0, n)`, used for border handling when the blur
window leaves the grid. -/
def clampIdx (n : ℕ) (i : ℤ) : ℕ := (max 0 (min i ((n : ℤ) - 1))).toNat

/-- Modelled from the spec: one output pixel of the fixed-radius
Gaussian-like blur of the AnomalyMapper (§4.4; `utils/anomalies.py` and the
blur internals are not under `src/`): a weighted sum over the
(2r+1)×(2r+1) window centred at the pixel. -/
def blurAt (wgt : ℤ → ℤ → ℚ) (r : ℕ) (g : Grid) (i j : ℕ) : ℚ :=
  ((List.range (2 * r + 1)).map (fun a =>
    ((List.range (2 * r + 1)).map (fun b =>
      wgt ((a : ℤ) - r) ((b : ℤ) - r) *
        gridGet g (clampIdx g.length ((i : ℤ) + (a : ℤ) - r))
          (clampIdx (gridWidth g) ((j : ℤ) + (b : ℤ) - r)))).sum)).sum

/-- Modelled from the spec: the blur applied to a whole grid, one output
pixel per input pixel. -/
def blurGrid (wgt : ℤ → ℤ → ℚ) (r : ℕ) (g : Grid) : Grid :=
  (List.range g.length).map fun i => (List.range (gridWidth g)).map fun j => blurAt wgt r g i j

/-- Modelled from the spec: the threshold step of the AnomalyMapper (§4.4) —
values below the cutoff are zeroed, the rest keep their magnitude. -/
def thresholdGrid (c : ℚ) (g : Grid) : Grid :=
  g.map fun row => row.map fun v => if v < c then 0 else v

/-- Modelled from the spec: `diff_map_to_anomaly_map` (`utils/anomalies.py`
is not under `src/`): blur the diff map with the given kernel, then threshold
at the cutoff. -/
def diff_map_to_anomaly_map (g : Grid) (c : ℚ) (wgt : ℤ → ℤ → ℚ) (r : ℕ) : Grid :=
  thresholdGrid c (blurGrid wgt r g)

/-- The inference-time conversion at line 168: cutoff 0.3 and the blur
configured at line 129 (kernel size 33, i.e. radius 16). -/
def inferenceAnomalyMap (wgt : ℤ → ℤ → ℚ) (g : Grid) : Grid :=
  diff_map_to_anomaly_map g anomalyThreshold wgt ((gaussianBlurKernelSize - 1) / 2)

/-- Claim C5: the inference-time conversion of diff maps applies the fixed
Gaussian blur of kernel size `2 * int(4 * 4 + 0.5) + 1 = 33` and sigma 4 and
the fixed cutoff 0.3, and the resulting anomaly map has the same spatial
dimensions as the input diff map, for every blur kernel weighting. -/
theorem claim_C5_anomaly_map :
    gaussianBlurKernelSize = 33 ∧ gaussianBlurSigma = 4 ∧ anomalyThreshold = 3 / 10 ∧
    ∀ (wgt : ℤ → ℤ → ℚ) (g : Grid),
      (inferenceAnomalyMap wgt g).length = g.length ∧
      gridWidth (inferenceAnomalyMap wgt g) = gridWidth g := by
  have hfloor : ⌊(4 * 4 + 1 / 2 : ℚ)⌋ = 16 := by
    rw [show (4 * 4 + 1 / 2 : ℚ) = 33 / 2 by norm_num]
    rw [Int.floor_eq_iff]
    norm_num
  refine ⟨by rw [gaussianBlurKernelSize, hfloor]; rfl, rfl, rfl, ?_⟩
  intro wgt g
  constructor
  · simp [inferenceAnomalyMap, diff_map_to_anomaly_map, thresholdGrid, blurGrid]
  · cases g with
    | nil => rfl
    | cons row rest =>
      simp [inferenceAnomalyMap, diff_map_to_anomaly_map, thresholdGrid, blurGrid,
        gridWidth, List.range_succ_eq_map]

/-! ## Conditioning features (`inference_ddim.py` 141-144, `main.py` 144-152 and 214-217) -/

/-- The shape of one feature map: channel count and spatial size. -/
structure FeatShape where
  channels : ℕ
  height : ℕ
  width : ℕ
deriving DecidableEq

/-- The per-endpoint channel counts of the external efficientnet-b4 feature
extractor (`EfficientNet.from_pretrained` with `extract_endpoints`,
reductions 1 through 6).  The backbone is an external collaborator; only its
output shapes matter here. -/
def effB4EndpointChannels : List ℕ := [24, 32, 56, 160, 448, 1792]

/-- The endpoint feature maps, with arbitrary per-endpoint spatial sizes. -/
def effB4Endpoints (sp : List (ℕ × ℕ)) : List FeatShape :=
  List.zipWith (fun c p => FeatShape.mk c p.1 p.2) effB4EndpointChannels sp

/-- `F.interpolate(image_features[i], size=(32, 32), mode='bilinear')`
(inference line 143, training line 216): keeps the channels, sets the spatial
size to 32×32. -/
def resizeTo32 (f : FeatShape) : FeatShape := ⟨f.channels, 32, 32⟩

/-- `torch.cat(image_features, dim=1)` (inference line 144, training line
217): concatenation along the channel dimension requires equal spatial sizes
and adds the channel counts. -/
def concatChannels : List FeatShape → Option FeatShape
  | [] => none
  | f :: rest =>
      if rest.all (fun g => g.height == f.height && g.width == f.width)
      then some ⟨f.channels + (rest.map FeatShape.channels).sum, f.height, f.width⟩
      else none

/-- The conditioning-feature pipeline of both loops (inference lines 141-144,
training lines 214-217): drop the last two endpoint maps (`[:-2]`), resize
each of the four retained maps to 32×32 (`for i in range(4)`), and
concatenate channel-wise.  The resize loop indexes positions 0 through 3, so
exactly four retained maps are required. -/
def conditioningShape (endpoints : List FeatShape) : Option FeatShape :=
  if endpoints.dropLast.dropLast.length = 4
  then concatChannels (endpoints.dropLast.dropLast.map resizeTo32)
  else none

/-- The UNet constructor arguments (`model_args`, `main.py` lines 144-152). -/
structure ModelConfigM where
  sample_size : ℕ
  in_channels : ℕ
  out_channels : ℕ
  layers_per_block : ℕ
  block_out_channels : List ℕ
  down_block_types : List String
  up_block_types : List String
deriving DecidableEq

/-- `channel_multiplier` (`main.py` lines 134-138): defined only for the
three supported resolutions. -/
def channel_multiplier (r : ℕ) : Option (List ℕ) :=
  if r = 128 then some [128, 128, 256, 384, 512]
  else if r = 256 then some [128, 128, 256, 256, 512, 512]
  else if r = 224 then some [256, 512, 768, 1024]
  else none

/-- `down_blocks` (`main.py` lines 139-140): all `DownBlock2D`, with the
second-to-last entry replaced by `AttnDownBlock2D`. -/
def downBlocks (n : ℕ) : List String :=
  (List.replicate n "DownBlock2D").set (n - 2) "AttnDownBlock2D"

/-- `up_blocks` (`main.py` lines 141-142): all `UpBlock2D`, with index 1
replaced by `AttnUpBlock2D`. -/
def upBlocks (n : ℕ) : List String :=
  (List.replicate n "UpBlock2D").set 1 "AttnUpBlock2D"

/-- `model_args` (`main.py` lines 144-152); resolutions outside
`channel_multiplier` raise a KeyError. -/
def model_args (resolution : ℕ) : Option ModelConfigM :=
  (channel_multiplier resolution).map fun bc =>
    ⟨resolution, 272, 272, 2, bc, downBlocks bc.length, upBlocks bc.length⟩

/-- Claim C6: for any spatial sizes of the six efficientnet-b4 endpoint maps,
the conditioning pipeline drops the last two, resizes the four retained maps
to 32×32 and concatenates them into a 272-channel tensor; 272 is exactly the
`in_channels` declared in `model_args` for every supported resolution. -/
theorem claim_C6_conditioning_channels :
    (∀ sp : List (ℕ × ℕ), sp.length = 6 →
        conditioningShape (effB4Endpoints sp) = some ⟨272, 32, 32⟩) ∧
    (∀ (r : ℕ) (cfg : ModelConfigM), model_args r = some cfg → cfg.in_channels = 272) := by
  constructor
  · intro sp hsp
    match sp, hsp with
    | [p1, p2, p3, p4, p5, p6], _ => rfl
  · intro r cfg hcfg
    unfold model_args at hcfg
    rcases Option.map_eq_some'.mp hcfg with ⟨bc, hbc, hf⟩
    rw [← hf]

/-- Witness for C6: six endpoints at the spatial sizes of a 224×224 input,
and the declared resolution 224. -/
theorem claim_C6_conditioning_channels_witness :
    conditioningShape (effB4Endpoints
        [(112, 112), (56, 56), (28, 28), (14, 14), (7, 7), (7, 7)]) = some ⟨272, 32, 32⟩ ∧
    ModelConfigM.in_channels
        ⟨224, 272, 272, 2, [256, 512, 768, 1024], downBlocks 4, upBlocks 4⟩ = 272 :=
  ⟨claim_C6_conditioning_channels.1 [(112, 112), (56, 56), (28, 28), (14, 14), (7, 7), (7, 7)]
      rfl,
   claim_C6_conditioning_channels.2 224
      ⟨224, 272, 272, 2, [256, 512, 768, 1024], downBlocks 4, upBlocks 4⟩ rfl⟩

/-! ## Persisted configuration (`main.py` 199-200; `inference_ddim.py` 94-97, 119-136) -/

/-- The training-argument fields whose values matter for the persisted
snapshot; the dataclass holds further fields, all serialized alike. -/
structure TrainArgsM where
  run_name : String
  mvtec_item : String
  resolution : ℕ
  train_steps : ℕ
  beta_schedule : String
  noise_kind : String
deriving DecidableEq

/-- Modelled from the spec: `save_args` (`utils/files.py` is not under
`src/`) serializes the argument dataclass as a JSON dictionary; the entries
relevant to inference are listed here, numeric fields as decimal strings. -/
def snapshotOf (a : TrainArgsM) : List (String × String) :=
  [("run_name", a.run_name), ("mvtec_item", a.mvtec_item),
   ("resolution", toString a.resolution), ("train_steps", toString a.train_steps),
   ("beta_schedule", a.beta_schedule), ("noise_kind", a.noise_kind)]

/-- Python `dict.get(key, default)`. -/
def dictGet (d : List (String × String)) (k dflt : String) : String :=
  match d.find? (fun p => p.1 == k) with
  | some p => p.2
  | none => dflt

/-- `train_arg_config.get("noise_kind", "gaussian")` (inference line 136). -/
def noiseKindOf (d : List (String × String)) : String := dictGet d "noise_kind" "gaussian"

/-- The JSON files written once per training run (`main.py` lines 199-200). -/
def trainWrittenFiles : List String := ["train_arg_config", "model_config"]

/-- The JSON files read by inference (`inference_ddim.py` lines 94-97). -/
def inferenceReadFiles : List String := ["model_config", "train_arg_config"]

/-- The checkpoint-directory contents relevant to inference. -/
structure CheckpointDir where
  model_config : ModelConfigM
  train_arg_config : List (String × String)

/-- What training persists (`main.py` lines 199-200): the architecture
parameters and the training-argument snapshot. -/
def trainPersist (a : TrainArgsM) : Option CheckpointDir :=
  (model_args a.resolution).map fun cfg => ⟨cfg, snapshotOf a⟩

/-- What inference reconstructs (`inference_ddim.py` lines 94-97, 119, 136):
the UNet configuration comes from `model_config` and the noise kind from
`train_arg_config`, defaulting to "gaussian". -/
def inferenceLoad (d : CheckpointDir) : ModelConfigM × String :=
  (d.model_config, noiseKindOf d.train_arg_config)

/-- Claim C7: training writes exactly the two configuration files that
inference reads (each once); loading a checkpoint written by training
recovers the persisted UNet configuration and the training noise kind, and a
snapshot without a `noise_kind` entry yields the default "gaussian". -/
theorem claim_C7_config_roundtrip :
    (∀ f : String, f ∈ inferenceReadFiles ↔ f ∈ trainWrittenFiles) ∧
    trainWrittenFiles.Nodup ∧
    (∀ (a : TrainArgsM) (cfg : ModelConfigM), model_args a.resolution = some cfg →
        trainPersist a = some ⟨cfg, snapshotOf a⟩ ∧
        inferenceLoad ⟨cfg, snapshotOf a⟩ = (cfg, a.noise_kind)) ∧
    (∀ d : List (String × String), d.find? (fun p => p.1 == "noise_kind") = none →
        noiseKindOf d = "gaussian") := by
  refine ⟨?_, by decide, ?_, ?_⟩
  · intro f
    simp only [inferenceReadFiles, trainWrittenFiles, List.mem_cons, List.not_mem_nil,
      or_false]
    tauto
  · intro a cfg hcfg
    refine ⟨?_, rfl⟩
    unfold trainPersist
    rw [hcfg]
    rfl
  · intro d hd
    unfold noiseKindOf dictGet
    rw [hd]

/-- A concrete training-argument record for the C7 witness. -/
def trainArgsEx : TrainArgsM := ⟨"run0", "bottle", 224, 1000, "linear", "simplex"⟩

/-- The model configuration persisted for resolution 224. -/
def modelConfigEx : ModelConfigM :=
  ⟨224, 272, 272, 2, [256, 512, 768, 1024], downBlocks 4, upBlocks 4⟩

/-- Witness for C7: the round trip at a concrete training configuration, and
the default on an empty snapshot. -/
theorem claim_C7_config_roundtrip_witness :
    trainPersist trainArgsEx = some ⟨modelConfigEx, snapshotOf trainArgsEx⟩ ∧
    inferenceLoad ⟨modelConfigEx, snapshotOf trainArgsEx⟩ = (modelConfigEx, "simplex") ∧
    noiseKindOf [] = "gaussian" := by
  refine ⟨(claim_C7_config_roundtrip.2.2.1 trainArgsEx modelConfigEx rfl).1, ?_,
    claim_C7_config_roundtrip.2.2.2 [] rfl⟩
  have h := (claim_C7_config_roundtrip.2.2.1 trainArgsEx modelConfigEx rfl).2
  rw [h]
  rfl

end DBAD
